import Mathlib

set_option maxRecDepth 8192

/-
Verification development for the OCR-Gemini manga OCR pipeline
(`gemini_ocr.py`, class `GeminiMangaOCR`).

The pipeline builds a natural-language OCR prompt from a configuration
snapshot (`_get_ocr_prompt`, `_get_translation_instructions`), enumerates
image files in a folder (`get_image_files`), and processes them
sequentially (`extract_text_from_image`, `_process_images`,
`_finalize_processing`), tracking success/error counters on the
orchestrator instance and writing one aggregate report.

Modelling conventions:
* Python strings are Lean `String`s; dictionaries are association lists.
* The external world (PIL image decoding, the remote Gemini call) is
  modelled by a per-file `FileOutcome`: the image fails to decode
  (`preprocessFail`, the `except` branch of `preprocess_image`), the
  remote call raises (`callFault`, the `except` branch of
  `extract_text_from_image`), or the remote call returns a text
  (`returned t`; `t = ""` models a falsy `response.text`).
* An exception propagating out of `extract_text_from_image` (the `raise`
  when `CONTINUE_ON_ERROR` is false) is modelled as `Except.error ()`.
* Writing the output file is modelled as succeeding: `_save_results`
  returning `False` on an OS-level write error is outside the model.
* Logging, `time.sleep`, and the optional debug artifacts are side
  effects with no influence on the data flow and are dropped.
-/

/-- Configuration snapshot: the `config.py` attributes read by
`GeminiMangaOCR`.  `prompts` is the `OCR_PROMPTS` dictionary as an
association list (keys unique in the source dictionary).  Absent optional
attributes are represented by their `getattr` defaults, except the
string settings read with `getattr(...) or 'dflt'`, whose falsy (empty)
values are mapped to the default at use sites by `orDefault`. -/
structure OcrConfig where
  prompts : List (String × String)
  defaultPrompt : String
  mangaLanguage : String
  enableTranslation : Bool
  sourceLanguage : String
  targetLanguage : String
  translationMode : String
  translationStyle : String
  preserveOriginal : Bool
  readingOrder : String
  continueOnError : Bool
  supportedExtensions : List String
deriving DecidableEq

/-- Python `prompts.get(key)`: first binding of `key` in the dictionary. -/
def promptsFind (prompts : List (String × String)) (key : String) : Option String :=
  (prompts.find? (fun p => p.1 == key)).map (fun p => p.2)

/-- Python `prompts.get(key, dflt)`. -/
def promptsGetD (prompts : List (String × String)) (key : String) (dflt : String) : String :=
  match promptsFind prompts key with
  | some v => v
  | none => dflt

/-- Python `s or dflt` for strings: the empty string is falsy. -/
def orDefault (s dflt : String) : String :=
  if s = "" then dflt else s

/-- Python `s.endswith(suf)`. -/
def strEndsWith (s suf : String) : Bool :=
  suf.data.isSuffixOf s.data

/-- Python `s.lower()` (sufficient for ASCII extension strings). -/
def strLower (s : String) : String :=
  ⟨s.data.map Char.toLower⟩

/-- Python `s.upper()` (sufficient for ASCII extension strings). -/
def strUpper (s : String) : String :=
  ⟨s.data.map Char.toUpper⟩

/-- Lexicographic comparison of character lists by code point, the order
Python `sorted` uses on strings. -/
def charListLe : List Char → List Char → Bool
  | [], _ => true
  | _ :: _, [] => false
  | a :: as, b :: bs =>
    if a.toNat < b.toNat then true
    else if b.toNat < a.toNat then false
    else charListLe as bs

/-- Python `a <= b` on strings. -/
def strLeB (a b : String) : Bool :=
  charListLe a.data b.data

/-- The fixed right-to-left spatial-order block appended by
`_get_ocr_prompt` when `READING_ORDER == 'right-to-left'`. -/
def spatialInstructions : String :=
  "\n\nCRITICAL SPATIAL INSTRUCTIONS FOR MANGA:\n- The page flows from RIGHT to LEFT, TOP to BOTTOM\n- Panel 1 is at the TOP-RIGHT corner\n- Panel 2 is to the LEFT of Panel 1\n- Continue LEFT across the top row\n- Drop down to the next row and start again from the RIGHT\n- Within each panel, speech bubbles follow RIGHT-TO-LEFT flow\n- Vertical text reads TOP-TO-BOTTOM\n- Pay attention to panel borders and speech bubble tails to determine reading sequence\n\nPlease number and extract text in this precise order, indicating the spatial position of each text element."

/-- Output-format sub-block for `TRANSLATION_MODE == 'inline'`. -/
def inlineFormatBlock : String :=
  "\n\nOUTPUT FORMAT (Inline):\nPanel X: [Original text] → [Translation]"

/-- Output-format sub-block for `TRANSLATION_MODE == 'separate'`. -/
def separateFormatBlock : String :=
  "\n\nOUTPUT FORMAT (Separate):\n=== ORIGINAL TEXT ===\n[All original text in reading order]\n\n=== ENGLISH TRANSLATION ===\n[All translations in same order]"

/-- Output-format sub-block for `TRANSLATION_MODE == 'both'`. -/
def bothFormatBlock : String :=
  "\n\nOUTPUT FORMAT (Both):\n=== DETAILED EXTRACTION ===\nPanel X: [Original] → [Translation]\n\n=== ORIGINAL TEXT ONLY ===\n[All original text]\n\n=== TRANSLATIONS ONLY ===\n[All translations]"

/-- The fixed tail of the translation instruction header. -/
def translationGuidelinesText : String :=
  "\n\nTranslation Guidelines:\n- For 'natural' style: Provide fluent, contextual translations\n- For 'literal' style: Stay close to original meaning and structure\n- For 'localized' style: Adapt cultural references and idioms\n- Maintain the emotional tone and character personality\n- Keep sound effects descriptive but culturally appropriate"

/-- `translation_mode = getattr(config, 'TRANSLATION_MODE', 'inline') or 'inline'`. -/
def effectiveTranslationMode (c : OcrConfig) : String :=
  orDefault c.translationMode "inline"

/-- The `if/elif` chain at the end of `_get_translation_instructions`:
selects one fixed output-format sub-block per recognized mode, none for
any other mode string. -/
def translationFormatBlock (mode : String) : String :=
  if mode = "inline" then inlineFormatBlock
  else if mode = "separate" then separateFormatBlock
  else if mode = "both" then bothFormatBlock
  else ""

/-- The parameterized header (`instructions = f"""..."""`) of
`_get_translation_instructions`. -/
def translationCommon (c : OcrConfig) : String :=
  "\n\nTRANSLATION INSTRUCTIONS:\n- Translate all extracted "
    ++ orDefault c.sourceLanguage "Chinese"
    ++ " text to "
    ++ orDefault c.targetLanguage "English"
    ++ "\n- Translation style: "
    ++ orDefault c.translationStyle "natural"
    ++ "\n- Preserve original text: "
    ++ (if c.preserveOriginal then "Yes" else "No")
    ++ "\n- Output mode: "
    ++ effectiveTranslationMode c
    ++ translationGuidelinesText

/-- `GeminiMangaOCR._get_translation_instructions`. -/
def getTranslationInstructions (c : OcrConfig) : String :=
  if c.enableTranslation = false then ""
  else translationCommon c ++ translationFormatBlock (effectiveTranslationMode c)

/-- Base-template selection phase of `_get_ocr_prompt` (everything up to
and including the Chinese/Japanese language override, before any block
is appended). -/
def baseTemplate (c : OcrConfig) : String :=
  let prompt0 := promptsGetD c.prompts c.defaultPrompt
    (promptsGetD c.prompts "basic" "Extract all text from this image.")
  if c.mangaLanguage = "Chinese" then
    if c.enableTranslation then
      match promptsFind c.prompts "chinese_translate" with
      | some p => p
      | none =>
        match promptsFind c.prompts "chinese" with
        | some p => p
        | none => prompt0
    else if c.defaultPrompt = "basic" then
      match promptsFind c.prompts "chinese" with
      | some p => p
      | none => prompt0
    else prompt0
  else if c.mangaLanguage = "Japanese" then
    match promptsFind c.prompts "japanese" with
    | some p => if c.defaultPrompt = "basic" then p else prompt0
    | none => prompt0
  else prompt0

/-- The guard `ENABLE_TRANSLATION and not default_prompt.endswith('_translate')`
of the translation-append step of `_get_ocr_prompt`.  Note the source
tests the configured `DEFAULT_PROMPT` key, not the template actually
selected by the language override. -/
def translationAppendCond (c : OcrConfig) : Bool :=
  c.enableTranslation && !(strEndsWith c.defaultPrompt "_translate")

/-- `_get_ocr_prompt` after its translation-append step (`prompt +=
translation_instructions`), before the reading-order step. -/
def promptAfterTranslation (c : OcrConfig) : String :=
  if translationAppendCond c then baseTemplate c ++ getTranslationInstructions c
  else baseTemplate c

/-- `GeminiMangaOCR._get_ocr_prompt`: base template, then the optional
translation block, then the optional right-to-left spatial block. -/
def getOcrPrompt (c : OcrConfig) : String :=
  if c.readingOrder = "right-to-left" then promptAfterTranslation c ++ spatialInstructions
  else promptAfterTranslation c

/-- The two instance counters of `GeminiMangaOCR`:
`self.processed_count` and `self.error_count`. -/
structure OcrState where
  processedCount : Nat
  errorCount : Nat
deriving DecidableEq

/-- `GeminiMangaOCR.__init__`: both counters start at zero. -/
def initState : OcrState :=
  ⟨0, 0⟩

/-- What the external world does for one file: PIL fails to decode the
image, the remote Gemini call raises, or the call returns text (the
empty string models a falsy `response.text`). -/
inductive FileOutcome where
  | preprocessFail : FileOutcome
  | callFault : FileOutcome
  | returned (text : String) : FileOutcome
deriving DecidableEq

/-- One per-page section of the report: the data `format_output` renders
(`os.path.basename` is dropped; filenames stand for themselves). -/
structure ReportEntry where
  filename : String
  page : Nat
  text : String
deriving DecidableEq

/-- The aggregate output artifact: the `_create_output_header` fields
followed by the per-page sections. -/
structure RunReport where
  totalImages : Nat
  successfulExtractions : Nat
  errors : Nat
  entries : List ReportEntry
deriving DecidableEq

/-- `GeminiMangaOCR.extract_text_from_image` on one file, given the
external outcome for that file.  `preprocess_image` catches its own
exceptions and returns `None`, so a decode failure just returns `None`
here; a raising remote call increments `error_count` and re-raises
(`Except.error ()`) exactly when `CONTINUE_ON_ERROR` is false; a
truthy `response.text` increments `processed_count`. -/
def extractTextFromImage (c : OcrConfig) (st : OcrState) (oc : FileOutcome) :
    OcrState × Except Unit (Option String) :=
  match oc with
  | FileOutcome.preprocessFail => (st, Except.ok none)
  | FileOutcome.callFault =>
    if c.continueOnError then (⟨st.processedCount, st.errorCount + 1⟩, Except.ok none)
    else (⟨st.processedCount, st.errorCount + 1⟩, Except.error ())
  | FileOutcome.returned t =>
    if t = "" then (st, Except.ok none)
    else (⟨st.processedCount + 1, st.errorCount⟩, Except.ok (some t))

/-- The loop of `GeminiMangaOCR._process_images`: `i` is the 1-based
`enumerate` index, `acc` the `all_text` list built so far.  An exception
from `extract_text_from_image` propagates out of the loop. -/
def processImagesAux (c : OcrConfig) (st : OcrState) (i : Nat)
    (files : List (String × FileOutcome)) (acc : List ReportEntry) :
    OcrState × Except Unit (List ReportEntry) :=
  match files with
  | [] => (st, Except.ok acc)
  | f :: rest =>
    match extractTextFromImage c st f.2 with
    | (st2, Except.error e) => (st2, Except.error e)
    | (st2, Except.ok none) => processImagesAux c st2 (i + 1) rest acc
    | (st2, Except.ok (some t)) =>
      processImagesAux c st2 (i + 1) rest (acc ++ [⟨f.1, i, t⟩])

/-- The loop of `_process_images` started as the source starts it:
`enumerate(image_files, 1)` and `all_text = []`. -/
def processImages (c : OcrConfig) (st : OcrState)
    (files : List (String × FileOutcome)) :
    OcrState × Except Unit (List ReportEntry) :=
  processImagesAux c st 1 files []

/-- `GeminiMangaOCR._finalize_processing` composed with `_save_results`
and `_create_output_header`: no extracted text means failure and no
report; otherwise the report is written with the header taken from the
instance counters.  The file write itself is modelled as succeeding. -/
def finalizeProcessing (st : OcrState) (entries : List ReportEntry)
    (totalImages : Nat) : Bool × Option RunReport :=
  match entries with
  | [] => (false, none)
  | e :: rest => (true, some ⟨totalImages, st.processedCount, st.errorCount, e :: rest⟩)

/-- `_process_images` followed by `_finalize_processing`: the whole batch
run on an already-enumerated file list.  The final component is
`Except.error ()` when a per-file exception aborted the batch. -/
def processImagesRun (c : OcrConfig) (st : OcrState)
    (files : List (String × FileOutcome)) :
    OcrState × Except Unit (Bool × Option RunReport) :=
  ((processImages c st files).1,
    match (processImages c st files).2 with
    | Except.error e => Except.error e
    | Except.ok entries =>
      Except.ok (finalizeProcessing (processImages c st files).1 entries files.length))

/-- Membership test implemented by the glob loop of `get_image_files`:
for each supported extension the source globs `*{ext.lower()}` and
`*{ext.upper()}` (glob is case-sensitive), so a name matches exactly
when it ends with the all-lowercase or the all-uppercase form of some
supported extension. -/
def matchesExtension (supported : List String) (filename : String) : Bool :=
  supported.any (fun ext =>
    strEndsWith filename (strLower ext) || strEndsWith filename (strUpper ext))

/-- `GeminiMangaOCR.get_image_files` on a folder listing: collect the
glob matches, deduplicate (`set`), and sort (`sorted`). -/
def getImageFiles (supported folderFiles : List String) : List String :=
  ((folderFiles.filter (fun f => matchesExtension supported f)).dedup).insertionSort
    (fun a b => strLeB a b = true)

/-- Totality of the lexicographic code-point order. -/
theorem charListLe_total : ∀ as bs, charListLe as bs = true ∨ charListLe bs as = true := by
  intro as
  induction as with
  | nil => intro bs; left; rfl
  | cons a as ih =>
    intro bs
    cases bs with
    | nil => right; rfl
    | cons b bs =>
      simp only [charListLe]
      rcases Nat.lt_trichotomy a.toNat b.toNat with h | h | h
      · left; simp [h]
      · rcases ih bs with h2 | h2
        · left; simp [h, h2]
        · right; simp [h.symm, h2]
      · right; simp [h]

/-- Transitivity of the lexicographic code-point order. -/
theorem charListLe_trans : ∀ as bs cs, charListLe as bs = true →
    charListLe bs cs = true → charListLe as cs = true := by
  intro as
  induction as with
  | nil => intro bs cs _ _; rfl
  | cons a as ih =>
    intro bs cs h1 h2
    cases bs with
    | nil => simp [charListLe] at h1
    | cons b bs =>
      cases cs with
      | nil => simp [charListLe] at h2
      | cons c cs =>
        simp only [charListLe] at h1 h2 ⊢
        rcases Nat.lt_trichotomy a.toNat b.toNat with hab | hab | hab <;>
          rcases Nat.lt_trichotomy b.toNat c.toNat with hbc | hbc | hbc <;>
          simp_all <;> try omega
        · exact ih bs cs h1 h2

instance : IsTotal String (fun a b => strLeB a b = true) :=
  ⟨fun a b => charListLe_total a.data b.data⟩

instance : IsTrans String (fun a b => strLeB a b = true) :=
  ⟨fun a b c => charListLe_trans a.data b.data c.data⟩

/-- Appending a nonempty string changes a string. -/
theorem append_ne_left (s t : String) (ht : 0 < t.length) : s ++ t ≠ s := by
  intro hEq
  have hlen := congrArg String.length hEq
  rw [String.length_append] at hlen
  omega

/-- A string of positive length is not the empty string. -/
theorem ne_empty_of_length_pos (s : String) (h : 0 < s.length) : s ≠ "" := by
  intro hEq
  rw [hEq] at h
  simp at h

/-- The parameterized translation header is never empty (it starts with a
fixed literal). -/
theorem translationCommon_length_pos (c : OcrConfig) : 0 < (translationCommon c).length := by
  have h1 : 0 < ("\n\nTRANSLATION INSTRUCTIONS:\n- Translate all extracted ").length := by decide
  simp only [translationCommon, String.length_append]
  omega

/-- With translation enabled, `_get_translation_instructions` returns the
header plus the mode sub-block, and the result is nonempty. -/
theorem getTranslationInstructions_of_enabled (c : OcrConfig)
    (h : c.enableTranslation = true) :
    getTranslationInstructions c =
      translationCommon c ++ translationFormatBlock (effectiveTranslationMode c)
    ∧ getTranslationInstructions c ≠ "" := by
  have hEq : getTranslationInstructions c =
      translationCommon c ++ translationFormatBlock (effectiveTranslationMode c) := by
    simp [getTranslationInstructions, h]
  refine ⟨hEq, ?_⟩
  rw [hEq]
  apply ne_empty_of_length_pos
  rw [String.length_append]
  have := translationCommon_length_pos c
  omega

/-- A configuration exercising the Chinese translation path of
`_get_ocr_prompt`: translation enabled, `DEFAULT_PROMPT = 'basic'`,
and a `chinese_translate` template present, as set up by
`chinese_translation_example.py`. -/
def exC1 : OcrConfig :=
  { prompts := [("basic", "BASIC TEMPLATE"), ("chinese", "CHINESE TEMPLATE"),
      ("chinese_translate", "CHINESE TRANSLATE TEMPLATE")]
  , defaultPrompt := "basic"
  , mangaLanguage := "Chinese"
  , enableTranslation := true
  , sourceLanguage := "Chinese"
  , targetLanguage := "English"
  , translationMode := "inline"
  , translationStyle := "natural"
  , preserveOriginal := true
  , readingOrder := ""
  , continueOnError := true
  , supportedExtensions := [".jpg"] }

/-- C1 counterexample: with `MANGA_LANGUAGE = 'Chinese'`, translation
enabled and `DEFAULT_PROMPT = 'basic'`, the language override selects the
translation-specific `chinese_translate` template as the base template,
yet `_get_ocr_prompt` still appends the translation instruction block,
because the source gates the append on the configured key
`default_prompt.endswith('_translate')`, not on the selected template.
The claim states the block is appended iff the selected template is not
already a translation-specific variant, so it is false here. -/
theorem C1_counterexample :
    promptsFind exC1.prompts "chinese_translate" = some "CHINESE TRANSLATE TEMPLATE"
    ∧ baseTemplate exC1 = "CHINESE TRANSLATE TEMPLATE"
    ∧ exC1.enableTranslation = true
    ∧ getOcrPrompt exC1 = baseTemplate exC1 ++ getTranslationInstructions exC1
    ∧ getOcrPrompt exC1 ≠ baseTemplate exC1 := by
  refine ⟨rfl, rfl, rfl, rfl, ?_⟩
  apply append_ne_left
  have h := translationCommon_length_pos exC1
  have hEq := (getTranslationInstructions_of_enabled exC1 rfl).1
  rw [hEq, String.length_append]
  omega

/-- C1 amended: the translation block is appended iff translation is
enabled and the configured `DEFAULT_PROMPT` key (not the template
selected after the language override) does not end in `'_translate'`;
when the block is appended it consists of the parameterized header plus
the sub-block selected by the effective translation mode, where each of
the three recognized modes selects its own fixed nonempty sub-block
(three pairwise distinct blocks) and any other mode string selects no
output-format sub-block. -/
theorem C1_amended (c : OcrConfig) :
    (translationAppendCond c = true ↔
      (c.enableTranslation = true ∧ strEndsWith c.defaultPrompt "_translate" = false))
    ∧ (translationAppendCond c = true →
        promptAfterTranslation c = baseTemplate c ++ getTranslationInstructions c
        ∧ getTranslationInstructions c ≠ ""
        ∧ getTranslationInstructions c =
            translationCommon c ++ translationFormatBlock (effectiveTranslationMode c))
    ∧ (translationAppendCond c = false → promptAfterTranslation c = baseTemplate c)
    ∧ (effectiveTranslationMode c = "inline" →
        translationFormatBlock (effectiveTranslationMode c) = inlineFormatBlock)
    ∧ (effectiveTranslationMode c = "separate" →
        translationFormatBlock (effectiveTranslationMode c) = separateFormatBlock)
    ∧ (effectiveTranslationMode c = "both" →
        translationFormatBlock (effectiveTranslationMode c) = bothFormatBlock)
    ∧ (effectiveTranslationMode c ≠ "inline" → effectiveTranslationMode c ≠ "separate" →
        effectiveTranslationMode c ≠ "both" →
        translationFormatBlock (effectiveTranslationMode c) = "")
    ∧ inlineFormatBlock ≠ separateFormatBlock
    ∧ inlineFormatBlock ≠ bothFormatBlock
    ∧ separateFormatBlock ≠ bothFormatBlock
    ∧ inlineFormatBlock ≠ "" ∧ separateFormatBlock ≠ "" ∧ bothFormatBlock ≠ "" := by
  refine ⟨?_, ?_, ?_, ?_, ?_, ?_, ?_, by decide, by decide, by decide, by decide, by decide, by decide⟩
  · constructor
    · intro h
      simp only [translationAppendCond, Bool.and_eq_true, Bool.not_eq_true'] at h
      exact h
    · intro h
      simp only [translationAppendCond, Bool.and_eq_true, Bool.not_eq_true']
      exact h
  · intro h
    have hEn : c.enableTranslation = true := by
      simp only [translationAppendCond, Bool.and_eq_true] at h
      exact h.1
    have hInstr := getTranslationInstructions_of_enabled c hEn
    refine ⟨?_, hInstr.2, hInstr.1⟩
    simp [promptAfterTranslation, h]
  · intro h
    simp [promptAfterTranslation, h]
  · intro h
    simp [translationFormatBlock, h]
  · intro h
    simp [translationFormatBlock, h]
  · intro h
    simp [translationFormatBlock, h]
  · intro h1 h2 h3
    simp [translationFormatBlock, h1, h2, h3]

/-- C1 witness: the amended statement instantiated at the concrete
Chinese-translation configuration. -/
theorem C1_witness :
    promptAfterTranslation exC1 = baseTemplate exC1 ++ getTranslationInstructions exC1 :=
  (((C1_amended exC1).2.1) rfl).1

/-- A configuration with right-to-left reading order and translation
disabled. -/
def exC8 : OcrConfig :=
  { exC1 with readingOrder := "right-to-left", enableTranslation := false }

/-- C8 confirmed: `_get_ocr_prompt` appends the fixed spatial-order block
exactly when `READING_ORDER == 'right-to-left'`; the append strictly
changes the prompt; and the part of the prompt built before the
reading-order step does not depend on the reading-order setting.  The
statement is quantified over every configuration, so the biconditional
holds regardless of the language, template and translation settings. -/
theorem C8_spatial_block_iff (c : OcrConfig) :
    (c.readingOrder = "right-to-left" →
      getOcrPrompt c = promptAfterTranslation c ++ spatialInstructions
      ∧ getOcrPrompt c ≠ promptAfterTranslation c)
    ∧ (c.readingOrder ≠ "right-to-left" → getOcrPrompt c = promptAfterTranslation c)
    ∧ (∀ r : String, promptAfterTranslation { c with readingOrder := r } =
        promptAfterTranslation c) := by
  refine ⟨?_, ?_, fun r => rfl⟩
  · intro h
    constructor
    · simp [getOcrPrompt, h]
    · simp only [getOcrPrompt, h, if_pos]
      apply append_ne_left
      decide
  · intro h
    simp [getOcrPrompt, h]

/-- C8 witness: the spatial block is appended at a concrete
right-to-left configuration. -/
theorem C8_witness :
    getOcrPrompt exC8 = promptAfterTranslation exC8 ++ spatialInstructions :=
  ((C8_spatial_block_iff exC8).1 rfl).1

/-- The supported-extension set of the shipped `config.py` (restricted to
the ones used in the scenarios; the claims quantify over the set). -/
def exC7exts : List String := [".jpg", ".jpeg", ".png", ".bmp", ".tiff"]

/-- C7 counterexample: the file `a.Jpg` matches the supported extension
`.jpg` case-insensitively (lowercasing the name yields the `.jpg`
suffix), but `get_image_files` only globs the all-lowercase and
all-uppercase variants of each extension, so the file is not enumerated.
The claim says any mixture of upper- and lower-case letters in the
extension matches, so it is false here. -/
theorem C7_counterexample :
    strEndsWith (strLower "a.Jpg") ".jpg" = true
    ∧ matchesExtension [".jpg"] "a.Jpg" = false
    ∧ getImageFiles [".jpg"] ["a.Jpg"] = [] := by
  refine ⟨by decide, by decide, by decide⟩

/-- C7 amended: `get_image_files` enumerates exactly those folder entries
whose name ends with the all-lowercase or the all-uppercase form of a
supported extension (mixed-case extensions are not matched), with the
result deduplicated and sorted lexicographically by code point. -/
theorem C7_amended (supported folderFiles : List String) :
    (∀ x, x ∈ getImageFiles supported folderFiles ↔
      x ∈ folderFiles ∧ matchesExtension supported x = true)
    ∧ (getImageFiles supported folderFiles).Nodup
    ∧ List.Sorted (fun a b => strLeB a b = true) (getImageFiles supported folderFiles) := by
  refine ⟨?_, ?_, List.sorted_insertionSort _ _⟩
  · intro x
    rw [getImageFiles, (List.perm_insertionSort _ _).mem_iff, List.mem_dedup,
      List.mem_filter]
  · exact ((List.perm_insertionSort _ _).nodup_iff).mpr (List.nodup_dedup _)

/-- C7 witness: the membership characterization at a concrete folder. -/
theorem C7_witness :
    ("a.jpg" ∈ getImageFiles exC7exts ["b.png", "a.jpg", "c.bmp"] ↔
      ("a.jpg" ∈ ["b.png", "a.jpg", "c.bmp"] ∧ matchesExtension exC7exts "a.jpg" = true)) :=
  (C7_amended exC7exts ["b.png", "a.jpg", "c.bmp"]).1 "a.jpg"

/-- A minimal valid configuration for batch runs (translation off,
continue-on-error as in the shipped `config.py`). -/
def exBatchCfg : OcrConfig :=
  { prompts := [("basic", "Extract all readable text from this image.")]
  , defaultPrompt := "basic"
  , mangaLanguage := "English"
  , enableTranslation := false
  , sourceLanguage := ""
  , targetLanguage := ""
  , translationMode := ""
  , translationStyle := ""
  , preserveOriginal := true
  , readingOrder := "right-to-left"
  , continueOnError := true
  , supportedExtensions := [".jpg", ".jpeg", ".png", ".bmp", ".tiff"] }

/-- The batch configuration with `CONTINUE_ON_ERROR = False`. -/
def exBatchCfgAbort : OcrConfig :=
  { exBatchCfg with continueOnError := false }

/-- Counter totals over the loop: the final success plus error counters
exceed the initial totals by at most the number of files handed to the
loop, whether or not the loop aborts. -/
theorem processImagesAux_total (c : OcrConfig) :
    ∀ (files : List (String × FileOutcome)) (st : OcrState) (i : Nat)
      (acc : List ReportEntry),
      (processImagesAux c st i files acc).1.processedCount +
          (processImagesAux c st i files acc).1.errorCount ≤
        st.processedCount + st.errorCount + files.length := by
  intro files
  induction files with
  | nil =>
    intro st i acc
    simp [processImagesAux]
  | cons f rest ih =>
    intro st i acc
    obtain ⟨name, oc⟩ := f
    cases oc with
    | preprocessFail =>
      simp only [processImagesAux, extractTextFromImage, List.length_cons]
      have h := ih st (i + 1) acc
      omega
    | callFault =>
      cases hcOn : c.continueOnError with
      | true =>
        simp only [processImagesAux, extractTextFromImage, hcOn, if_true, List.length_cons]
        have h := ih ⟨st.processedCount, st.errorCount + 1⟩ (i + 1) acc
        simp only [OcrState.processedCount, OcrState.errorCount] at h
        omega
      | false =>
        simp [processImagesAux, extractTextFromImage, hcOn, List.length_cons]
        omega
    | returned t =>
      by_cases ht : t = ""
      · simp only [processImagesAux, extractTextFromImage, ht, if_pos, List.length_cons]
        have h := ih st (i + 1) acc
        omega
      · simp only [processImagesAux, extractTextFromImage, ht, if_neg, if_false,
          List.length_cons]
        have h := ih ⟨st.processedCount + 1, st.errorCount⟩ (i + 1) (acc ++ [⟨name, i, t⟩])
        simp only [OcrState.processedCount, OcrState.errorCount] at h
        omega

/-- Counter monotonicity over the loop: a run never decreases either
instance counter. -/
theorem processImagesAux_mono (c : OcrConfig) :
    ∀ (files : List (String × FileOutcome)) (st : OcrState) (i : Nat)
      (acc : List ReportEntry),
      st.processedCount ≤ (processImagesAux c st i files acc).1.processedCount
      ∧ st.errorCount ≤ (processImagesAux c st i files acc).1.errorCount := by
  intro files
  induction files with
  | nil =>
    intro st i acc
    simp [processImagesAux]
  | cons f rest ih =>
    intro st i acc
    obtain ⟨name, oc⟩ := f
    cases oc with
    | preprocessFail =>
      simp only [processImagesAux, extractTextFromImage]
      exact ih st (i + 1) acc
    | callFault =>
      by_cases hc : c.continueOnError
      · simp only [processImagesAux, extractTextFromImage, hc, if_true]
        have h := ih ⟨st.processedCount, st.errorCount + 1⟩ (i + 1) acc
        constructor
        · exact h.1
        · exact Nat.le_trans (Nat.le_succ _) h.2
      · simp only [processImagesAux, extractTextFromImage, hc, if_false]
        exact ⟨Nat.le_refl _, Nat.le_succ _⟩
    | returned t =>
      by_cases ht : t = ""
      · simp only [processImagesAux, extractTextFromImage, ht, if_pos]
        exact ih st (i + 1) acc
      · simp only [processImagesAux, extractTextFromImage, ht, if_neg, if_false]
        have h := ih ⟨st.processedCount + 1, st.errorCount⟩ (i + 1) (acc ++ [⟨name, i, t⟩])
        constructor
        · exact Nat.le_trans (Nat.le_succ _) h.1
        · exact h.2

/-- When the loop completes, the success counter grows by exactly the
number of report entries produced. -/
theorem processImagesAux_processed (c : OcrConfig) :
    ∀ (files : List (String × FileOutcome)) (st : OcrState) (i : Nat)
      (acc entries : List ReportEntry),
      (processImagesAux c st i files acc).2 = Except.ok entries →
      (processImagesAux c st i files acc).1.processedCount + acc.length =
        st.processedCount + entries.length := by
  intro files
  induction files with
  | nil =>
    intro st i acc entries h
    simp only [processImagesAux] at h ⊢
    simp only [Except.ok.injEq] at h
    subst h
    rfl
  | cons f rest ih =>
    intro st i acc entries h
    obtain ⟨name, oc⟩ := f
    cases oc with
    | preprocessFail =>
      simp only [processImagesAux, extractTextFromImage] at h ⊢
      exact ih st (i + 1) acc entries h
    | callFault =>
      by_cases hc : c.continueOnError
      · simp only [processImagesAux, extractTextFromImage, hc, if_true] at h ⊢
        have h2 := ih ⟨st.processedCount, st.errorCount + 1⟩ (i + 1) acc entries h
        simpa using h2
      · simp only [processImagesAux, extractTextFromImage, hc, if_false] at h
        cases h
    | returned t =>
      by_cases ht : t = ""
      · simp only [processImagesAux, extractTextFromImage, ht, if_pos] at h ⊢
        exact ih st (i + 1) acc entries h
      · simp only [processImagesAux, extractTextFromImage, ht, if_neg, if_false] at h ⊢
        have h2 := ih ⟨st.processedCount + 1, st.errorCount⟩ (i + 1) (acc ++ [⟨name, i, t⟩])
          entries h
        simp only [List.length_append, List.length_cons, List.length_nil] at h2
        omega

/-- When the loop completes, every produced entry carries as its page
number the 1-based `enumerate` position of its file in the processed
list, and its text is exactly what the remote call returned for that
file. -/
theorem processImagesAux_pages (c : OcrConfig) :
    ∀ (files : List (String × FileOutcome)) (st : OcrState) (i : Nat)
      (acc entries : List ReportEntry),
      (processImagesAux c st i files acc).2 = Except.ok entries →
      ∀ e ∈ entries, e ∈ acc ∨
        ∃ k, e.page = i + k ∧ files[k]? = some (e.filename, FileOutcome.returned e.text) := by
  intro files
  induction files with
  | nil =>
    intro st i acc entries h e he
    simp only [processImagesAux, Except.ok.injEq] at h
    subst h
    exact Or.inl he
  | cons f rest ih =>
    intro st i acc entries h e he
    obtain ⟨name, oc⟩ := f
    cases oc with
    | preprocessFail =>
      simp only [processImagesAux, extractTextFromImage] at h
      rcases ih st (i + 1) acc entries h e he with hacc | ⟨k, hk1, hk2⟩
      · exact Or.inl hacc
      · exact Or.inr ⟨k + 1, by omega, by simpa using hk2⟩
    | callFault =>
      by_cases hc : c.continueOnError
      · simp only [processImagesAux, extractTextFromImage, hc, if_true] at h
        rcases ih ⟨st.processedCount, st.errorCount + 1⟩ (i + 1) acc entries h e he with
          hacc | ⟨k, hk1, hk2⟩
        · exact Or.inl hacc
        · exact Or.inr ⟨k + 1, by omega, by simpa using hk2⟩
      · simp only [processImagesAux, extractTextFromImage, hc, if_false] at h
        cases h
    | returned t =>
      by_cases ht : t = ""
      · simp only [processImagesAux, extractTextFromImage, ht, if_pos] at h
        rcases ih st (i + 1) acc entries h e he with hacc | ⟨k, hk1, hk2⟩
        · exact Or.inl hacc
        · exact Or.inr ⟨k + 1, by omega, by simpa using hk2⟩
      · simp only [processImagesAux, extractTextFromImage, ht, if_neg, if_false] at h
        rcases ih ⟨st.processedCount + 1, st.errorCount⟩ (i + 1) (acc ++ [⟨name, i, t⟩])
          entries h e he with hacc | ⟨k, hk1, hk2⟩
        · rcases List.mem_append.mp hacc with hl | hr
          · exact Or.inl hl
          · simp only [List.mem_singleton] at hr
            subst hr
            exact Or.inr ⟨0, by simp, by simp⟩
        · exact Or.inr ⟨k + 1, by omega, by simpa using hk2⟩

/-- With `CONTINUE_ON_ERROR = False`, the first raising remote call ends
the loop: the computation is independent of every later file, and the
exception propagates out of the loop. -/
theorem processImagesAux_fault (c : OcrConfig) (hc : c.continueOnError = false) :
    ∀ (pre : List (String × FileOutcome)),
      (∀ p ∈ pre, p.2 ≠ FileOutcome.callFault) →
    ∀ (st : OcrState) (i : Nat) (acc : List ReportEntry) (name : String)
      (rest : List (String × FileOutcome)),
      processImagesAux c st i (pre ++ (name, FileOutcome.callFault) :: rest) acc =
        processImagesAux c st i (pre ++ [(name, FileOutcome.callFault)]) acc
      ∧ (processImagesAux c st i (pre ++ (name, FileOutcome.callFault) :: rest) acc).2 =
          Except.error () := by
  intro pre
  induction pre with
  | nil =>
    intro hpre st i acc name rest
    constructor
    · simp [processImagesAux, extractTextFromImage, hc]
    · simp [processImagesAux, extractTextFromImage, hc]
  | cons p pre ih =>
    intro hpre st i acc name rest
    obtain ⟨pn, poc⟩ := p
    have hpoc : poc ≠ FileOutcome.callFault := by
      have h := hpre (pn, poc) (by simp)
      simpa using h
    have hpre2 : ∀ q ∈ pre, q.2 ≠ FileOutcome.callFault := by
      intro q hq
      exact hpre q (by simp [hq])
    cases poc with
    | callFault => exact absurd rfl hpoc
    | preprocessFail =>
      simp only [List.cons_append, processImagesAux, extractTextFromImage]
      exact ih hpre2 st (i + 1) acc name rest
    | returned t =>
      by_cases ht : t = ""
      · simp only [List.cons_append, processImagesAux, extractTextFromImage, ht, if_pos]
        exact ih hpre2 st (i + 1) acc name rest
      · simp only [List.cons_append, processImagesAux, extractTextFromImage, ht, if_neg,
          if_false]
        exact ih hpre2 ⟨st.processedCount + 1, st.errorCount⟩ (i + 1) (acc ++ [⟨pn, i, t⟩])
          name rest

/-- C2 counterexample: with `CONTINUE_ON_ERROR = False`, file 2 fails
preprocessing, yet the batch does not abort: file 3 is still processed,
its entry appears in the report, and the batch reports success.  The
claim says any per-file failure (including a preprocessing failure)
aborts the batch immediately with no later file processed, so it is
false here: `preprocess_image` swallows its own exception and
`extract_text_from_image` simply returns `None` without consulting the
flag. -/
theorem C2_counterexample :
    (processImagesRun exBatchCfgAbort initState
        [("a.png", FileOutcome.returned "TEXT A"), ("b.png", FileOutcome.preprocessFail),
          ("c.png", FileOutcome.returned "TEXT C")]).2 =
      Except.ok (true, some ⟨3, 2, 0,
        [⟨"a.png", 1, "TEXT A"⟩, ⟨"c.png", 3, "TEXT C"⟩]⟩) := by
  rfl

/-- C2 amended: with continue-on-error disabled, only a raising remote
call (`RecognitionError`) aborts the batch; preprocessing failures and
empty results merely skip their file.  When the first raising call
occurs, the batch aborts immediately after that file: the run is
independent of all later files and the error propagates, so no report is
produced at all (in particular no entry for the failed file or any later
file). -/
theorem C2_amended (c : OcrConfig) (hc : c.continueOnError = false)
    (pre : List (String × FileOutcome))
    (hpre : ∀ p ∈ pre, p.2 ≠ FileOutcome.callFault)
    (st : OcrState) (name : String) :
    (∀ rest rest2 : List (String × FileOutcome),
      processImages c st (pre ++ (name, FileOutcome.callFault) :: rest) =
        processImages c st (pre ++ (name, FileOutcome.callFault) :: rest2))
    ∧ (∀ rest : List (String × FileOutcome),
        (processImagesRun c st (pre ++ (name, FileOutcome.callFault) :: rest)).2 =
          Except.error ()) := by
  constructor
  · intro rest rest2
    have h1 := processImagesAux_fault c hc pre hpre st 1 [] name rest
    have h2 := processImagesAux_fault c hc pre hpre st 1 [] name rest2
    simp only [processImages]
    rw [h1.1, h2.1]
  · intro rest
    have h1 := processImagesAux_fault c hc pre hpre st 1 [] name rest
    have h2 : (processImages c st (pre ++ (name, FileOutcome.callFault) :: rest)).2 =
        Except.error () := h1.2
    simp only [processImagesRun, h2]

/-- C2 witness: the amended statement at a concrete three-file batch
whose second file raises. -/
theorem C2_witness :
    (processImagesRun exBatchCfgAbort initState
        [("a.png", FileOutcome.returned "TEXT A"), ("b.png", FileOutcome.callFault),
          ("c.png", FileOutcome.returned "TEXT C")]).2 = Except.error () :=
  (C2_amended exBatchCfgAbort rfl [("a.png", FileOutcome.returned "TEXT A")] (by decide)
    initState "b.png").2 [("c.png", FileOutcome.returned "TEXT C")]

/-- C3 counterexample: a file whose image cannot be decoded is skipped
with no report entry, but the error counter stays at 0, not 1: the
`except` branch of `preprocess_image` returns `None` without touching
`self.error_count`, and `extract_text_from_image` returns early.  The
claim says the error counter increments by one, so it is false here. -/
theorem C3_counterexample :
    (processImagesRun exBatchCfg initState
        [("a.png", FileOutcome.preprocessFail)]).1.errorCount = 0
    ∧ ¬ ((processImagesRun exBatchCfg initState
        [("a.png", FileOutcome.preprocessFail)]).1.errorCount = 1)
    ∧ (processImagesRun exBatchCfg initState
        [("a.png", FileOutcome.preprocessFail)]).2 = Except.ok (false, none) := by
  refine ⟨rfl, by decide, rfl⟩

/-- C3 amended: a file whose image cannot be opened or decoded is skipped
without retrying and produces no report entry, but both counters are
left unchanged (the error counter is NOT incremented). -/
theorem C3_amended (c : OcrConfig) (st : OcrState) (name : String) :
    extractTextFromImage c st FileOutcome.preprocessFail = (st, Except.ok none)
    ∧ (∀ (i : Nat) (rest : List (String × FileOutcome)) (acc : List ReportEntry),
        processImagesAux c st i ((name, FileOutcome.preprocessFail) :: rest) acc =
          processImagesAux c st (i + 1) rest acc) := by
  exact ⟨rfl, fun i rest acc => rfl⟩

/-- C3 witness: the amended statement at a concrete state and file. -/
theorem C3_witness :
    extractTextFromImage exBatchCfg initState FileOutcome.preprocessFail =
      (initState, Except.ok none) :=
  (C3_amended exBatchCfg initState "a.png").1

/-- C4 counterexample: a recognition call that succeeds but returns empty
text is skipped with no report entry, but the error counter stays at 0,
not 1: the `else` branch of `extract_text_from_image` only logs a
warning and returns `None`.  The claim says the error counter
increments, so it is false here. -/
theorem C4_counterexample :
    (processImagesRun exBatchCfg initState
        [("a.png", FileOutcome.returned "")]).1.errorCount = 0
    ∧ ¬ ((processImagesRun exBatchCfg initState
        [("a.png", FileOutcome.returned "")]).1.errorCount = 1)
    ∧ (processImagesRun exBatchCfg initState
        [("a.png", FileOutcome.returned "")]).2 = Except.ok (false, none) := by
  refine ⟨rfl, by decide, rfl⟩

/-- C4 amended: a file whose recognition call returns empty text is
skipped (warning only) and produces no report entry, and neither counter
changes (the error counter is NOT incremented). -/
theorem C4_amended (c : OcrConfig) (st : OcrState) (name : String) :
    extractTextFromImage c st (FileOutcome.returned "") = (st, Except.ok none)
    ∧ (∀ (i : Nat) (rest : List (String × FileOutcome)) (acc : List ReportEntry),
        processImagesAux c st i ((name, FileOutcome.returned "") :: rest) acc =
          processImagesAux c st (i + 1) rest acc) := by
  exact ⟨rfl, fun i rest acc => rfl⟩

/-- C4 witness: the amended statement at a concrete state and file. -/
theorem C4_witness :
    extractTextFromImage exBatchCfg initState (FileOutcome.returned "") =
      (initState, Except.ok none) :=
  (C4_amended exBatchCfg initState "a.png").1

/-- C5 confirmed: whenever the file list handed to the loop is the sorted
enumeration produced by `get_image_files`, every report entry of a
completed run carries as its page number its file's 1-based position in
that sorted enumeration — positions are assigned by `enumerate` over all
matched files, not over the successful ones, and re-running the pure
functions on the same folder trivially yields the same numbers. -/
theorem C5_page_numbers (c : OcrConfig) (supported names : List String)
    (files : List (String × FileOutcome))
    (hf : files.map Prod.fst = getImageFiles supported names)
    (entries : List ReportEntry)
    (h : (processImages c initState files).2 = Except.ok entries) :
    ∀ e ∈ entries, 1 ≤ e.page ∧
      (getImageFiles supported names)[e.page - 1]? = some e.filename := by
  intro e he
  rcases processImagesAux_pages c files initState 1 [] entries h e he with hacc | ⟨k, hk1, hk2⟩
  · simp at hacc
  · constructor
    · omega
    · have hmap : (files.map Prod.fst)[k]? = some e.filename := by
        rw [List.getElem?_map, hk2]
        rfl
      rw [hf] at hmap
      have hpk : e.page - 1 = k := by omega
      rw [hpk]
      exact hmap

/-- The three-file scenario from the specification: matched files
`b.png`, `a.jpg`, `c.bmp`, all succeeding. -/
def exC5files : List (String × FileOutcome) :=
  [("a.jpg", FileOutcome.returned "TEXT A"), ("b.png", FileOutcome.returned "TEXT B"),
    ("c.bmp", FileOutcome.returned "TEXT C")]

/-- The report entries the scenario produces: pages a.jpg(1), b.png(2),
c.bmp(3). -/
def exC5entries : List ReportEntry :=
  [⟨"a.jpg", 1, "TEXT A"⟩, ⟨"b.png", 2, "TEXT B"⟩, ⟨"c.bmp", 3, "TEXT C"⟩]

/-- C5 witness: in the scenario, `b.png` is page 2, its position in the
sorted matched list. -/
theorem C5_witness :
    1 ≤ (ReportEntry.mk "b.png" 2 "TEXT B").page ∧
      (getImageFiles exC7exts ["b.png", "a.jpg", "c.bmp"])[
        (ReportEntry.mk "b.png" 2 "TEXT B").page - 1]? =
        some (ReportEntry.mk "b.png" 2 "TEXT B").filename :=
  C5_page_numbers exBatchCfg exC7exts ["b.png", "a.jpg", "c.bmp"] exC5files (by decide)
    exC5entries rfl (ReportEntry.mk "b.png" 2 "TEXT B") (by decide)

/-- C6 confirmed: for a run on a freshly constructed orchestrator in
which all files are attempted (no propagating exception), the report is
written iff at least one extraction succeeded (success counter positive),
and the batch returns success iff the report is written; with no success
the run returns failure and writes nothing. -/
theorem C6_report_iff_success (c : OcrConfig) (files : List (String × FileOutcome))
    (res : Bool × Option RunReport)
    (h : (processImagesRun c initState files).2 = Except.ok res) :
    (res.2.isSome ↔ 0 < (processImagesRun c initState files).1.processedCount)
    ∧ (res.1 = true ↔ res.2.isSome) := by
  cases hP : (processImages c initState files).2 with
  | error e =>
    simp only [processImagesRun, hP] at h
    cases h
  | ok entries =>
    simp only [processImagesRun, hP, Except.ok.injEq] at h
    have hcount2 : (processImages c initState files).1.processedCount = entries.length := by
      have h0 := processImagesAux_processed c files initState 1 [] entries hP
      simp only [processImages, initState, List.length_nil, Nat.add_zero,
        OcrState.processedCount] at h0 ⊢
      omega
    have hrun1 : (processImagesRun c initState files).1 =
        (processImages c initState files).1 := rfl
    rw [hrun1, hcount2]
    cases entries with
    | nil =>
      subst h
      simp [finalizeProcessing]
    | cons e0 es =>
      subst h
      simp [finalizeProcessing]

/-- A one-file batch whose only file succeeds. -/
def exFiles1 : List (String × FileOutcome) :=
  [("a.png", FileOutcome.returned "TEXT A")]

/-- A second one-file batch whose only file succeeds. -/
def exFiles2 : List (String × FileOutcome) :=
  [("b.png", FileOutcome.returned "TEXT B")]

/-- C6 witness: a completed one-success run writes a report. -/
theorem C6_witness :
    (((true, some (RunReport.mk 1 1 0 [ReportEntry.mk "a.png" 1 "TEXT A"])) :
        Bool × Option RunReport).2.isSome ↔
      0 < (processImagesRun exBatchCfg initState exFiles1).1.processedCount) :=
  (C6_report_iff_success exBatchCfg exFiles1
    (true, some (RunReport.mk 1 1 0 [ReportEntry.mk "a.png" 1 "TEXT A"])) rfl).1

/-- C9 confirmed: on a freshly constructed orchestrator, after a batch
run (completed or aborted) the success counter plus the error counter is
at most the number of files, because each file moves at most one of the
two counters, and by at most one; a file returning empty text (or
failing preprocessing) moves neither. -/
theorem C9_counter_sum_le (c : OcrConfig) (files : List (String × FileOutcome)) :
    (processImagesRun c initState files).1.processedCount +
        (processImagesRun c initState files).1.errorCount ≤ files.length
    ∧ (∀ (st : OcrState) (oc : FileOutcome),
        (extractTextFromImage c st oc).1.processedCount +
            (extractTextFromImage c st oc).1.errorCount ≤
          st.processedCount + st.errorCount + 1)
    ∧ (∀ st : OcrState, (extractTextFromImage c st (FileOutcome.returned "")).1 = st)
    ∧ (∀ st : OcrState, (extractTextFromImage c st FileOutcome.preprocessFail).1 = st) := by
  refine ⟨?_, ?_, fun st => rfl, fun st => rfl⟩
  · have h := processImagesAux_total c files initState 1 []
    have hrun1 : (processImagesRun c initState files).1 =
        (processImagesAux c initState 1 files []).1 := rfl
    rw [hrun1]
    simp only [initState, OcrState.processedCount, OcrState.errorCount, Nat.zero_add] at h
    exact h
  · intro st oc
    cases oc with
    | preprocessFail =>
      simp only [extractTextFromImage]
      omega
    | callFault =>
      cases hcOn : c.continueOnError with
      | true =>
        simp only [extractTextFromImage, hcOn, if_true, OcrState.processedCount,
          OcrState.errorCount]
        omega
      | false =>
        simp [extractTextFromImage, hcOn]
        omega
    | returned t =>
      by_cases ht : t = ""
      · simp only [extractTextFromImage, ht, if_pos]
        omega
      · simp only [extractTextFromImage, ht, if_neg, if_false, OcrState.processedCount,
          OcrState.errorCount]
        omega

/-- C10 confirmed: the counters start at zero at construction and no
batch run resets them, so the header of a later run on the same instance
reports cumulative counts: the header equals the final cumulative
counters, which dominate everything accumulated by the earlier run (or
by earlier direct per-image calls, by the same monotonicity). -/
theorem C10_counters_persist (c : OcrConfig) (files1 files2 : List (String × FileOutcome))
    (rep : RunReport)
    (h : (processImagesRun c (processImagesRun c initState files1).1 files2).2 =
        Except.ok (true, some rep)) :
    initState.processedCount = 0 ∧ initState.errorCount = 0
    ∧ rep.successfulExtractions =
        (processImagesRun c (processImagesRun c initState files1).1 files2).1.processedCount
    ∧ rep.errors =
        (processImagesRun c (processImagesRun c initState files1).1 files2).1.errorCount
    ∧ (processImagesRun c initState files1).1.processedCount ≤ rep.successfulExtractions
    ∧ (processImagesRun c initState files1).1.errorCount ≤ rep.errors := by
  cases hP : (processImages c (processImages c initState files1).1 files2).2 with
  | error e =>
    simp only [processImagesRun, hP] at h
    cases h
  | ok entries =>
    simp only [processImagesRun, hP, Except.ok.injEq] at h
    cases entries with
    | nil =>
      simp [finalizeProcessing] at h
    | cons e0 es =>
      simp only [finalizeProcessing, Prod.mk.injEq, Option.some.injEq] at h
      obtain ⟨-, hrep⟩ := h
      subst hrep
      refine ⟨rfl, rfl, rfl, rfl, ?_, ?_⟩
      · exact (processImagesAux_mono c files2 (processImagesRun c initState files1).1 1 []).1
      · exact (processImagesAux_mono c files2 (processImagesRun c initState files1).1 1 []).2

/-- C10 witness: after a successful first run, the second run's report
header counts the first run's success as well. -/
theorem C10_witness :
    (RunReport.mk 1 2 0 [ReportEntry.mk "b.png" 1 "TEXT B"]).successfulExtractions =
      (processImagesRun exBatchCfg (processImagesRun exBatchCfg initState exFiles1).1
          exFiles2).1.processedCount :=
  (C10_counters_persist exBatchCfg exFiles1 exFiles2
    (RunReport.mk 1 2 0 [ReportEntry.mk "b.png" 1 "TEXT B"]) rfl).2.2.1
